import Mathlib

/-!
Verification of the NayaSutra wallet identity and authorization subsystem.

The definitions below are a shallow embedding of the repository's code:

* `adminRegisterUserWithWallet`, `adminUpdateUserWallet`, `adminVerifyWallet`
  embed the admin wallet management service (TypeScript);
* `log_wallet_change` and `verify_wallet_authorization` embed the SQL
  migration `ADD_WALLET_VERIFICATION.sql` (audit trigger and the login-time
  authorization function);
* `verifyWalletAuthorization` embeds the TypeScript wrapper in
  `caseService.ts`;
* `handleRegisterUser`, `handleUpdateWallet`, `handleToggleVerification`
  embed the admin UI handlers, which hold the wallet-format validation.

Stateful database operations are modelled by explicit state passing on
`DBState`; fallible infrastructure calls are modelled by injected boolean
flags in `Env`.  Identifier generation (`gen_random_uuid` for profile
rows, the auth provider's ids for identities) is modelled by per-table
counters producing values in disjoint namespaces of `UID`.
-/

namespace NayaSutra

/-- Character class of the source regular expression `[a-fA-F0-9]`
(part_001, `handleRegisterUser` / `handleUpdateWallet`), spelled over code
points: lowercase a-f, uppercase A-F, digits 0-9. -/
def isHexChar (c : Char) : Bool :=
  (97 ≤ c.toNat && c.toNat ≤ 102) || (65 ≤ c.toNat && c.toNat ≤ 70) ||
    (48 ≤ c.toNat && c.toNat ≤ 57)

/-- Lowercase hexadecimal digit: a-f or 0-9. -/
def isLowerHexChar (c : Char) : Bool :=
  (97 ≤ c.toNat && c.toNat ≤ 102) || (48 ≤ c.toNat && c.toNat ≤ 57)

/-- ASCII lower-casing of a string, character by character.  This embeds
JavaScript `toLowerCase` (and SQL `lower`) on the ASCII strings handled by
this subsystem. -/
def toLowerStr (s : String) : String := ⟨s.data.map Char.toLower⟩

/-- Wallet format test of the source regular expression
`/^0x[a-fA-F0-9]{40}$/` used by the UI handlers in part_001. -/
def isWalletFormat (s : String) : Bool :=
  match s.data with
  | c0 :: c1 :: rest =>
    c0 == '0' && c1 == 'x' && rest.length == 40 && rest.all isHexChar
  | _ => false

/-- Canonical stored wallet form: `0x` followed by 40 lowercase hex digits. -/
def isCanonicalWallet (s : String) : Bool :=
  match s.data with
  | c0 :: c1 :: rest =>
    c0 == '0' && c1 == 'x' && rest.length == 40 && rest.all isLowerHexChar
  | _ => false

/-- SQL `LIKE` pattern matching: `%` matches any sequence, `_` matches any
single character, every other pattern character matches itself. -/
def likeMatch (pat txt : List Char) : Bool :=
  match pat, txt with
  | [], [] => true
  | [], _ :: _ => false
  | p :: ps, [] => p == '%' && likeMatch ps []
  | p :: ps, t :: ts =>
    if p == '%' then likeMatch ps (t :: ts) || likeMatch (p :: ps) ts
    else if p == '_' then likeMatch ps ts
    else p == t && likeMatch ps ts
termination_by (pat.length, txt.length)

/-- SQL `ILIKE`: case-insensitive `LIKE`, modelled by lower-casing both the
text and the pattern. -/
def sqlIlike (txt pat : String) : Bool :=
  likeMatch (pat.data.map Char.toLower) (txt.data.map Char.toLower)

/-- Wallet normalization as performed by the system boundary: the UI
handlers (part_001) reject any string failing the `0x` + 40-hex-digit
pattern before calling the service, and the service (part_002) lower-cases
the accepted address before all further checks. -/
def normalizeWallet (w : String) : Option String :=
  if isWalletFormat w then some (toLowerStr w) else none

/-- Opaque generated identifiers: `prof` ids are generated by the identity
store for profile rows, `auth` ids by the external identity provider for
authenticatable identities. -/
inductive UID where
  | prof (n : Nat)
  | auth (n : Nat)
deriving DecidableEq

/-- Row of `public.profiles` with the columns this subsystem touches. -/
structure Profile where
  id : UID
  userId : UID
  email : String
  fullName : String
  roleCategory : String
  phone : Option String
  walletAddress : Option String
  isWalletVerified : Bool
  walletVerifiedAt : Option Nat
deriving DecidableEq

/-- Row of `public.wallet_audit_log`. -/
structure AuditEntry where
  profileId : UID
  action : String
  oldValue : Option String
  newValue : Option String
  changedBy : Option UID
  changedAt : Nat
deriving DecidableEq

/-- Record of the external authenticatable-identity provider. -/
structure AuthUser where
  id : UID
  email : String
deriving DecidableEq

/-- Durable state: profile rows, the audit ledger, the identity provider's
records, and the two id generators. -/
structure DBState where
  profiles : List Profile
  auditLog : List AuditEntry
  authUsers : List AuthUser
  nextProf : Nat
  nextAuth : Nat
deriving DecidableEq

/-- Per-call context: the caller's auth uid (resolved by the session
layer), the clock, and injected success flags of the fallible
infrastructure calls. -/
structure Env where
  caller : Option UID
  timestamp : Nat
  authCreateOk : Bool
  profileInsertOk : Bool
  profileUpdateOk : Bool
  auditInsertOk : Bool
  authDeleteOk : Bool
deriving DecidableEq

/-- Env with the audit-insert success flag replaced. -/
def withAuditInsertOk (e : Env) (b : Bool) : Env :=
  { e with auditInsertOk := b }

/-- Text rendering of a boolean as the SQL trigger casts it
(`NEW.is_wallet_verified::TEXT`). -/
def boolText (b : Bool) : String := if b then "true" else "false"

/-- JavaScript `x || null` on a nullable string: the empty string is falsy
and collapses to null. -/
def jsOrNull : Option String → Option String
  | some s => if s = "" then none else some s
  | none => none

/-- Embeds `log_wallet_change` from `ADD_WALLET_VERIFICATION.sql`: the
AFTER UPDATE row trigger inserts a `wallet_changed` entry when the wallet
address is distinct from before, and a `wallet_verified` or
`wallet_unverified` entry when the verification flag is distinct from
before, attributing both to `auth.uid()`. -/
def log_wallet_change (authUid : Option UID) (t : Nat) (oldRow newRow : Profile) :
    List AuditEntry :=
  (if oldRow.walletAddress ≠ newRow.walletAddress then
    [{ profileId := newRow.id, action := "wallet_changed",
       oldValue := oldRow.walletAddress, newValue := newRow.walletAddress,
       changedBy := authUid, changedAt := t }]
   else []) ++
  (if oldRow.isWalletVerified ≠ newRow.isWalletVerified then
    [{ profileId := newRow.id,
       action := if newRow.isWalletVerified then "wallet_verified" else "wallet_unverified",
       oldValue := some (boolText oldRow.isWalletVerified),
       newValue := some (boolText newRow.isWalletVerified),
       changedBy := authUid, changedAt := t }]
   else [])

/-- Single-table `UPDATE public.profiles ... WHERE id = pid` with the
`log_wallet_changes_trigger` attached: every matched row is replaced by
`upd` applied to it, and the AFTER UPDATE trigger appends its audit rows
for each matched row. -/
def updateProfileRows (env : Env) (pid : UID) (upd : Profile → Profile)
    (st : DBState) : DBState :=
  { st with
    profiles := st.profiles.map fun p => if p.id == pid then upd p else p,
    auditLog := st.auditLog ++
      (st.profiles.filter (fun p => p.id == pid)).flatMap
        (fun p => log_wallet_change env.caller env.timestamp p (upd p)) }

/-- Input of `adminRegisterUserWithWallet`. -/
structure UserRegistration where
  email : String
  fullName : String
  walletAddress : String
  roleCategory : String
  phone : Option String
deriving DecidableEq

/-- Input of `adminUpdateUserWallet`. -/
structure WalletUpdateRequest where
  profileId : UID
  newWalletAddress : String
  reason : String
deriving DecidableEq

/-- Result shape of `adminRegisterUserWithWallet`. -/
structure RegisterResult where
  success : Bool
  profileId : Option UID
  error : Option String
deriving DecidableEq

/-- Result shape of `adminUpdateUserWallet` and `adminVerifyWallet`. -/
structure UpdateResult where
  success : Bool
  error : Option String
deriving DecidableEq

/-- Embeds `adminRegisterUserWithWallet` (part_002): authenticate the
caller, check the caller's profile role, normalize the wallet, pre-check
wallet and email uniqueness, create the auth identity, insert the profile
(compensating by deleting the identity on failure, without inspecting the
deletion's result), and append a `wallet_added` audit entry whose result is
not inspected. -/
def adminRegisterUserWithWallet (env : Env) (registration : UserRegistration)
    (st : DBState) : RegisterResult × DBState :=
  match env.caller with
  | none => (⟨false, none, some "Not authenticated"⟩, st)
  | some callerUid =>
    let adminProfile := st.profiles.find? fun p => p.userId == callerUid
    if (adminProfile.map Profile.roleCategory != some "admin") &&
       (adminProfile.map Profile.roleCategory != some "judiciary") then
      (⟨false, none, some "Unauthorized: Only admins can register users"⟩, st)
    else
      let normalizedWallet := toLowerStr registration.walletAddress
      if (st.profiles.find? fun p => p.walletAddress == some normalizedWallet).isSome then
        (⟨false, none, some "This wallet address is already registered"⟩, st)
      else if (st.profiles.find? fun p => p.email == registration.email).isSome then
        (⟨false, none, some "This email is already registered"⟩, st)
      else if !env.authCreateOk then
        (⟨false, none, some "Failed to create auth user"⟩, st)
      else
        let newAuthId := UID.auth st.nextAuth
        let st1 : DBState :=
          { st with authUsers := st.authUsers ++ [⟨newAuthId, registration.email⟩],
                    nextAuth := st.nextAuth + 1 }
        if !env.profileInsertOk then
          let st2 : DBState :=
            if env.authDeleteOk then
              { st1 with authUsers := st1.authUsers.filter fun u => u.id != newAuthId }
            else st1
          (⟨false, none, some "Failed to create profile"⟩, st2)
        else
          let newProfile : Profile :=
            { id := UID.prof st.nextProf, userId := newAuthId,
              email := registration.email, fullName := registration.fullName,
              roleCategory := registration.roleCategory,
              phone := registration.phone,
              walletAddress := some normalizedWallet,
              isWalletVerified := true,
              walletVerifiedAt := some env.timestamp }
          let st2 : DBState :=
            { st1 with profiles := st1.profiles ++ [newProfile],
                       nextProf := st.nextProf + 1 }
          let st3 : DBState :=
            if env.auditInsertOk then
              { st2 with auditLog := st2.auditLog ++
                  [{ profileId := newProfile.id, action := "wallet_added",
                     oldValue := none, newValue := some normalizedWallet,
                     changedBy := some callerUid, changedAt := env.timestamp }] }
            else st2
          (⟨true, some newProfile.id, none⟩, st3)

/-- Embeds `adminUpdateUserWallet` (part_002): authenticate, check the
caller's role, normalize the new wallet, fetch the target profile for the
audit trail, check that no other profile holds the new wallet, update the
row (re-verifying the wallet), and append an explicit `wallet_changed`
audit entry whose result is not inspected.  The row update also fires the
storage trigger. -/
def adminUpdateUserWallet (env : Env) (request : WalletUpdateRequest)
    (st : DBState) : UpdateResult × DBState :=
  match env.caller with
  | none => (⟨false, some "Not authenticated"⟩, st)
  | some callerUid =>
    let adminProfile := st.profiles.find? fun p => p.userId == callerUid
    if (adminProfile.map Profile.roleCategory != some "admin") &&
       (adminProfile.map Profile.roleCategory != some "judiciary") then
      (⟨false, some "Unauthorized: Only admins can update wallets"⟩, st)
    else
      let normalizedWallet := toLowerStr request.newWalletAddress
      match st.profiles.find? fun p => p.id == request.profileId with
      | none => (⟨false, some "Profile not found"⟩, st)
      | some profile =>
        if (st.profiles.find? fun p =>
              p.walletAddress == some normalizedWallet && p.id != request.profileId).isSome then
          (⟨false, some "New wallet address is already in use"⟩, st)
        else if !env.profileUpdateOk then
          (⟨false, some "Failed to update wallet"⟩, st)
        else
          let st1 := updateProfileRows env request.profileId
            (fun p => { p with walletAddress := some normalizedWallet,
                               isWalletVerified := true,
                               walletVerifiedAt := some env.timestamp }) st
          let st2 : DBState :=
            if env.auditInsertOk then
              { st1 with auditLog := st1.auditLog ++
                  [{ profileId := request.profileId, action := "wallet_changed",
                     oldValue := jsOrNull profile.walletAddress,
                     newValue := some normalizedWallet,
                     changedBy := some callerUid, changedAt := env.timestamp }] }
            else st1
          (⟨true, none⟩, st2)

/-- Embeds `adminVerifyWallet` (part_002): with no caller check and no
existence check, update the verification flag and timestamp of every row
matching the id; the update fires the storage trigger.  An update matching
zero rows is still a success. -/
def adminVerifyWallet (env : Env) (profileId : UID) (verify : Bool)
    (st : DBState) : UpdateResult × DBState :=
  if !env.profileUpdateOk then
    (⟨false, some "Failed to update wallet verification"⟩, st)
  else
    (⟨true, none⟩,
     updateProfileRows env profileId
       (fun p => { p with isWalletVerified := verify,
                          walletVerifiedAt := if verify then some env.timestamp else none })
       st)

/-- Row returned by the SQL function `verify_wallet_authorization`. -/
structure WalletAuthRow where
  is_authorized : Bool
  profile_id : UID
  full_name : String
  role_category : String
deriving DecidableEq

/-- Embeds `verify_wallet_authorization` from the migration: select (LIMIT
1, modelled as the first in scan order) a profile whose wallet matches the
input under `ILIKE`, and report as `is_authorized` the conjunction of exact
wallet equality, role equality, and the verification flag, together with
the identity fields. -/
def verify_wallet_authorization (st : DBState)
    (p_wallet_address p_role_category : String) : Option WalletAuthRow :=
  match st.profiles.find? (fun p =>
      match p.walletAddress with
      | some w => sqlIlike w p_wallet_address
      | none => false) with
  | none => none
  | some p =>
    some { is_authorized := (p.walletAddress == some p_wallet_address) &&
             (p.roleCategory == p_role_category) && p.isWalletVerified,
           profile_id := p.id, full_name := p.fullName,
           role_category := p.roleCategory }

/-- Result shape of the TypeScript wrapper `verifyWalletAuthorization`. -/
structure WalletAuthResponse where
  isAuthorized : Bool
  profileId : Option UID
  fullName : Option String
  roleCategory : Option String
  error : Option String
deriving DecidableEq

/-- Embeds `verifyWalletAuthorization` (caseService.ts): reject falsy
inputs, call the SQL function with the lower-cased wallet, report
not-authorized when no row comes back, and otherwise forward the row. -/
def verifyWalletAuthorization (st : DBState)
    (walletAddress roleCategory : String) : WalletAuthResponse :=
  if walletAddress = "" ∨ roleCategory = "" then
    { isAuthorized := false, profileId := none, fullName := none,
      roleCategory := none, error := some "Missing wallet address or role" }
  else
    match verify_wallet_authorization st (toLowerStr walletAddress) roleCategory with
    | none =>
      { isAuthorized := false, profileId := none, fullName := none,
        roleCategory := none,
        error := some "Wallet not found or not authorized for this role" }
    | some row =>
      { isAuthorized := row.is_authorized, profileId := some row.profile_id,
        fullName := some row.full_name, roleCategory := some row.role_category,
        error := none }

/-- Form state of the register tab of the admin UI (part_001). -/
structure RegisterForm where
  email : String
  fullName : String
  walletAddress : String
  roleCategory : String
  phone : String
deriving DecidableEq

/-- Form state of the update tab of the admin UI (part_001). -/
structure UpdateForm where
  profileId : UID
  newWalletAddress : String
  reason : String
deriving DecidableEq

/-- Embeds `handleRegisterUser` (part_001): reject missing required fields,
reject a wallet failing the format regular expression before any call, and
otherwise invoke the registration service. -/
def handleRegisterUser (env : Env) (form : RegisterForm) (st : DBState) : DBState :=
  if form.email = "" ∨ form.fullName = "" ∨ form.walletAddress = "" then st
  else if !isWalletFormat form.walletAddress then st
  else
    (adminRegisterUserWithWallet env
      { email := form.email, fullName := form.fullName,
        walletAddress := form.walletAddress, roleCategory := form.roleCategory,
        phone := if form.phone = "" then none else some form.phone } st).2

/-- Embeds `handleUpdateWallet` (part_001): reject a missing or malformed
new wallet before any call, default the empty reason to "Admin updated",
and otherwise invoke the update service. -/
def handleUpdateWallet (env : Env) (form : UpdateForm) (st : DBState) : DBState :=
  if form.newWalletAddress = "" then st
  else if !isWalletFormat form.newWalletAddress then st
  else
    (adminUpdateUserWallet env
      { profileId := form.profileId, newWalletAddress := form.newWalletAddress,
        reason := if form.reason = "" then "Admin updated" else form.reason } st).2

/-- Embeds `handleToggleVerification` (part_001): flip the displayed status
through the verification service. -/
def handleToggleVerification (env : Env) (userId : UID) (currentStatus : Bool)
    (st : DBState) : DBState :=
  (adminVerifyWallet env userId (!currentStatus) st).2

/-- Service-level mutating operation, as invoked by the admin surface. -/
inductive AdminOp where
  | register (env : Env) (registration : UserRegistration)
  | updateWallet (env : Env) (request : WalletUpdateRequest)
  | setVerified (env : Env) (profileId : UID) (verify : Bool)

/-- State reached by one service-level operation. -/
def applyOp (st : DBState) : AdminOp → DBState
  | .register env r => (adminRegisterUserWithWallet env r st).2
  | .updateWallet env r => (adminUpdateUserWallet env r st).2
  | .setVerified env pid v => (adminVerifyWallet env pid v st).2

/-- State reached by a sequence of service-level operations. -/
def runOps (ops : List AdminOp) (st : DBState) : DBState :=
  ops.foldl applyOp st

/-- Boundary-level mutating operation, as driven by the admin UI. -/
inductive UIOp where
  | registerUser (env : Env) (form : RegisterForm)
  | updateWalletForm (env : Env) (form : UpdateForm)
  | toggleVerification (env : Env) (userId : UID) (currentStatus : Bool)

/-- State reached by one boundary-level operation. -/
def applyUIOp (st : DBState) : UIOp → DBState
  | .registerUser env f => handleRegisterUser env f st
  | .updateWalletForm env f => handleUpdateWallet env f st
  | .toggleVerification env u c => handleToggleVerification env u c st

/-- State reached by a sequence of boundary-level operations. -/
def runUIOps (ops : List UIOp) (st : DBState) : DBState :=
  ops.foldl applyUIOp st

/-- Audit rows appended on top of the rows of an earlier state. -/
def auditDelta (st stNew : DBState) : List AuditEntry :=
  stNew.auditLog.drop st.auditLog.length

/-- Profile row inserted by a successful registration. -/
def regProfile (env : Env) (reg : UserRegistration) (st : DBState) : Profile :=
  { id := UID.prof st.nextProf, userId := UID.auth st.nextAuth,
    email := reg.email, fullName := reg.fullName,
    roleCategory := reg.roleCategory, phone := reg.phone,
    walletAddress := some (toLowerStr reg.walletAddress),
    isWalletVerified := true, walletVerifiedAt := some env.timestamp }

/-- Audit entry appended by a successful registration. -/
def regAudit (env : Env) (reg : UserRegistration) (st : DBState) : AuditEntry :=
  { profileId := UID.prof st.nextProf, action := "wallet_added",
    oldValue := none, newValue := some (toLowerStr reg.walletAddress),
    changedBy := env.caller, changedAt := env.timestamp }

/-- Row update applied by a successful wallet rebind. -/
def updWalletFn (env : Env) (req : WalletUpdateRequest) (p : Profile) : Profile :=
  { p with walletAddress := some (toLowerStr req.newWalletAddress),
           isWalletVerified := true, walletVerifiedAt := some env.timestamp }

/-- Explicit audit entry appended by a successful wallet rebind. -/
def updAudit (env : Env) (req : WalletUpdateRequest) (profile : Profile) : AuditEntry :=
  { profileId := req.profileId, action := "wallet_changed",
    oldValue := jsOrNull profile.walletAddress,
    newValue := some (toLowerStr req.newWalletAddress),
    changedBy := env.caller, changedAt := env.timestamp }

/-- Row update applied by the verification toggle. -/
def setVerifiedFn (env : Env) (v : Bool) (p : Profile) : Profile :=
  { p with isWalletVerified := v,
           walletVerifiedAt := if v then some env.timestamp else none }

/-- Two profiles do not hold the same non-null wallet address. -/
def noSharedWallet (p q : Profile) : Bool :=
  match p.walletAddress, q.walletAddress with
  | some w, some v => w != v
  | _, _ => true

/-- Invariant (a): at most one profile holds a given non-null wallet. -/
def WalletUnique (st : DBState) : Prop :=
  st.profiles.Pairwise fun p q => noSharedWallet p q = true

/-- Invariant (b): at most one profile holds a given email. -/
def EmailUnique (st : DBState) : Prop :=
  st.profiles.Pairwise fun p q => p.email ≠ q.email

/-- Primary key: profile row ids are pairwise distinct. -/
def IdsUnique (st : DBState) : Prop :=
  st.profiles.Pairwise fun p q => p.id ≠ q.id

/-- Tests whether a uid is outside the range already handed out by the
profile-row id generator. -/
def profIdFresh (bound : Nat) : UID → Bool
  | .prof k => decide (k < bound)
  | .auth _ => true

/-- Tests whether a uid is outside the range already handed out by the
identity provider. -/
def authIdFresh (bound : Nat) : UID → Bool
  | .auth k => decide (k < bound)
  | .prof _ => true

/-- Generated profile ids in the state lie below the generator counter. -/
def ProfIdsFresh (st : DBState) : Prop :=
  ∀ p ∈ st.profiles, profIdFresh st.nextProf p.id = true

/-- Generated identity ids in the state lie below the generator counter. -/
def AuthIdsFresh (st : DBState) : Prop :=
  ∀ u ∈ st.authUsers, authIdFresh st.nextAuth u.id = true

/-- Identity references held by profiles lie below the generator counter. -/
def UserRefsFresh (st : DBState) : Prop :=
  ∀ p ∈ st.profiles, authIdFresh st.nextAuth p.userId = true

/-- Well-formedness of a reachable state: both uniqueness invariants, the
primary key, and freshness of the id generators. -/
def Invariant (st : DBState) : Prop :=
  WalletUnique st ∧ EmailUnique st ∧ IdsUnique st ∧ ProfIdsFresh st ∧
    AuthIdsFresh st ∧ UserRefsFresh st

instance (st : DBState) : Decidable (WalletUnique st) :=
  inferInstanceAs (Decidable (st.profiles.Pairwise fun p q => noSharedWallet p q = true))

instance (st : DBState) : Decidable (EmailUnique st) :=
  inferInstanceAs (Decidable (st.profiles.Pairwise fun p q : Profile => p.email ≠ q.email))

instance (st : DBState) : Decidable (IdsUnique st) :=
  inferInstanceAs (Decidable (st.profiles.Pairwise fun p q : Profile => p.id ≠ q.id))

instance (st : DBState) : Decidable (ProfIdsFresh st) :=
  inferInstanceAs (Decidable (∀ p ∈ st.profiles, profIdFresh st.nextProf p.id = true))

instance (st : DBState) : Decidable (AuthIdsFresh st) :=
  inferInstanceAs (Decidable (∀ u ∈ st.authUsers, authIdFresh st.nextAuth u.id = true))

instance (st : DBState) : Decidable (UserRefsFresh st) :=
  inferInstanceAs (Decidable (∀ p ∈ st.profiles, authIdFresh st.nextAuth p.userId = true))

instance (st : DBState) : Decidable (Invariant st) :=
  inferInstanceAs (Decidable (WalletUnique st ∧ EmailUnique st ∧ IdsUnique st ∧
    ProfIdsFresh st ∧ AuthIdsFresh st ∧ UserRefsFresh st))

/-- Invariant (c): the verification flag holds exactly when the
verification timestamp is present. -/
def VerifiedConsistent (st : DBState) : Prop :=
  ∀ p ∈ st.profiles, p.isWalletVerified = p.walletVerifiedAt.isSome

/-- Invariant (d): every stored non-null wallet is canonical. -/
def CanonicalWallets (st : DBState) : Prop :=
  ∀ p ∈ st.profiles, p.walletAddress.all isCanonicalWallet = true

instance (st : DBState) : Decidable (VerifiedConsistent st) :=
  inferInstanceAs (Decidable (∀ p ∈ st.profiles, p.isWalletVerified = p.walletVerifiedAt.isSome))

instance (st : DBState) : Decidable (CanonicalWallets st) :=
  inferInstanceAs (Decidable (∀ p ∈ st.profiles, p.walletAddress.all isCanonicalWallet = true))

/-- Example canonical wallet address. -/
def exWalletA : String := "0xaaaaaaaaaaaaaaaaaaaaaaaaaaaaaaaaaaaaaaaa"

/-- Example canonical wallet address. -/
def exWalletB : String := "0xbbbbbbbbbbbbbbbbbbbbbbbbbbbbbbbbbbbbbbbb"

/-- Example canonical wallet address. -/
def exWalletC : String := "0xcccccccccccccccccccccccccccccccccccccccc"

/-- Example mixed-case wallet address in the accepted wire format. -/
def exWalletMixed : String := "0xABCDEF0123456789ABCDEF0123456789ABCDEF01"

/-- Example profile of an administrator. -/
def exAdminProfile : Profile :=
  { id := UID.prof 0, userId := UID.auth 0, email := "admin@x.com",
    fullName := "Admin", roleCategory := "admin", phone := none,
    walletAddress := some exWalletA, isWalletVerified := true,
    walletVerifiedAt := some 0 }

/-- Example profile of a lawyer with a verified wallet. -/
def exTargetProfile : Profile :=
  { id := UID.prof 1, userId := UID.auth 1, email := "lawyer@x.com",
    fullName := "Lawyer", roleCategory := "lawyer", phone := none,
    walletAddress := some exWalletB, isWalletVerified := true,
    walletVerifiedAt := some 0 }

/-- Example state: an administrator and a lawyer, both registered. -/
def exSt : DBState :=
  { profiles := [exAdminProfile, exTargetProfile],
    auditLog := [],
    authUsers := [⟨UID.auth 0, "admin@x.com"⟩, ⟨UID.auth 1, "lawyer@x.com"⟩],
    nextProf := 2, nextAuth := 2 }

/-- Example empty state. -/
def emptySt : DBState :=
  { profiles := [], auditLog := [], authUsers := [], nextProf := 0, nextAuth := 0 }

/-- Example environment: the administrator calls, everything succeeds. -/
def exEnv : Env :=
  { caller := some (UID.auth 0), timestamp := 5, authCreateOk := true,
    profileInsertOk := true, profileUpdateOk := true, auditInsertOk := true,
    authDeleteOk := true }

/-- Example environment where the profile insert fails. -/
def exEnvInsertFail : Env :=
  { exEnv with profileInsertOk := false }

/-- Example environment where the caller is the lawyer, not an admin. -/
def exEnvLawyer : Env :=
  { exEnv with caller := some (UID.auth 1) }

/-- Example registration input. -/
def exReg : UserRegistration :=
  { email := "new@x.com", fullName := "New User",
    walletAddress := exWalletMixed, roleCategory := "clerk", phone := none }

/-- Example wallet rebind request for the lawyer's profile. -/
def exUpdReq : WalletUpdateRequest :=
  { profileId := UID.prof 1, newWalletAddress := exWalletC,
    reason := "User lost wallet access" }

lemma toLower_of_not_upper (c : Char) (h : ¬(65 ≤ c.toNat ∧ c.toNat ≤ 90)) :
    c.toLower = c := by
  simp only [Char.toLower, ge_iff_le]
  rw [if_neg h]

lemma toLower_toNat_of_upper (c : Char) (h1 : 65 ≤ c.toNat) (h2 : c.toNat ≤ 90) :
    c.toLower.toNat = c.toNat + 32 := by
  have hv : c.toNat = 65 ∨ c.toNat = 66 ∨ c.toNat = 67 ∨ c.toNat = 68 ∨
      c.toNat = 69 ∨ c.toNat = 70 ∨ c.toNat = 71 ∨ c.toNat = 72 ∨
      c.toNat = 73 ∨ c.toNat = 74 ∨ c.toNat = 75 ∨ c.toNat = 76 ∨
      c.toNat = 77 ∨ c.toNat = 78 ∨ c.toNat = 79 ∨ c.toNat = 80 ∨
      c.toNat = 81 ∨ c.toNat = 82 ∨ c.toNat = 83 ∨ c.toNat = 84 ∨
      c.toNat = 85 ∨ c.toNat = 86 ∨ c.toNat = 87 ∨ c.toNat = 88 ∨
      c.toNat = 89 ∨ c.toNat = 90 := by omega
  simp only [Char.toLower, ge_iff_le]
  rcases hv with h | h | h | h | h | h | h | h | h | h | h | h | h | h | h | h |
    h | h | h | h | h | h | h | h | h | h <;>
    rw [h] <;> norm_num <;> decide

lemma lowerHexChar_bounds (c : Char) (h : isLowerHexChar c = true) :
    (97 ≤ c.toNat ∧ c.toNat ≤ 102) ∨ (48 ≤ c.toNat ∧ c.toNat ≤ 57) := by
  simpa [isLowerHexChar, Bool.or_eq_true, Bool.and_eq_true,
    decide_eq_true_eq] using h

lemma lowerHexChar_toLower_self (c : Char) (h : isLowerHexChar c = true) :
    c.toLower = c := by
  rcases lowerHexChar_bounds c h with h1 | h1 <;>
    exact toLower_of_not_upper c (by omega)

lemma hexChar_cases (c : Char) (h : isHexChar c = true) :
    isLowerHexChar c = true ∨ (65 ≤ c.toNat ∧ c.toNat ≤ 70) := by
  simp only [isHexChar, Bool.or_eq_true, Bool.and_eq_true, decide_eq_true_eq] at h
  simp only [isLowerHexChar, Bool.or_eq_true, Bool.and_eq_true, decide_eq_true_eq]
  omega

lemma hexChar_toLower_lower (c : Char) (h : isHexChar c = true) :
    isLowerHexChar c.toLower = true := by
  rcases hexChar_cases c h with h1 | h1
  · rw [lowerHexChar_toLower_self c h1]; exact h1
  · have hn := toLower_toNat_of_upper c h1.1 (by omega)
    simp only [isLowerHexChar, Bool.or_eq_true, Bool.and_eq_true, decide_eq_true_eq]
    omega

lemma map_self_of_fixed {α : Type} (f : α → α) (l : List α)
    (h : ∀ c ∈ l, f c = c) : l.map f = l := by
  induction l with
  | nil => rfl
  | cons a tl ih =>
    rw [List.map_cons, h a (List.mem_cons_self a tl),
      ih fun c hc => h c (List.mem_cons_of_mem a hc)]

lemma lowerHexChar_isHexChar (c : Char) (h : isLowerHexChar c = true) :
    isHexChar c = true := by
  rcases lowerHexChar_bounds c h with h1 | h1 <;>
    simp only [isHexChar, Bool.or_eq_true, Bool.and_eq_true, decide_eq_true_eq] <;>
    omega

lemma isCanonicalWallet_toLowerStr (s : String) (h : isWalletFormat s = true) :
    isCanonicalWallet (toLowerStr s) = true := by
  obtain ⟨data⟩ := s
  cases data with
  | nil => simp [isWalletFormat] at h
  | cons c0 tl =>
    cases tl with
    | nil => simp [isWalletFormat] at h
    | cons c1 rest =>
      simp only [isWalletFormat, Bool.and_eq_true, beq_iff_eq] at h
      obtain ⟨⟨⟨h0, h1⟩, hlen⟩, hall⟩ := h
      subst h0; subst h1
      show isCanonicalWallet ⟨List.map Char.toLower ('0' :: 'x' :: rest)⟩ = true
      simp only [List.map_cons, isCanonicalWallet, Bool.and_eq_true, beq_iff_eq,
        List.length_map, List.all_map]
      refine ⟨⟨⟨by decide, by decide⟩, hlen⟩, ?_⟩
      rw [List.all_eq_true] at hall ⊢
      intro c hc
      exact hexChar_toLower_lower c (hall c hc)

lemma isCanonicalWallet_fixed (s : String) (h : isCanonicalWallet s = true) :
    toLowerStr s = s := by
  obtain ⟨data⟩ := s
  cases data with
  | nil => rfl
  | cons c0 tl =>
    cases tl with
    | nil => simp [isCanonicalWallet] at h
    | cons c1 rest =>
      simp only [isCanonicalWallet, Bool.and_eq_true, beq_iff_eq] at h
      obtain ⟨⟨⟨h0, h1⟩, _hlen⟩, hall⟩ := h
      subst h0; subst h1
      show String.mk (List.map Char.toLower ('0' :: 'x' :: rest)) = _
      rw [List.all_eq_true] at hall
      have hrest : List.map Char.toLower rest = rest :=
        map_self_of_fixed Char.toLower rest
          fun c hc => lowerHexChar_toLower_self c (hall c hc)
      have hz : Char.toLower '0' = '0' := by decide
      have hx : Char.toLower 'x' = 'x' := by decide
      simp only [List.map_cons, hrest, hz, hx]

lemma isCanonicalWallet_isWalletFormat (s : String) (h : isCanonicalWallet s = true) :
    isWalletFormat s = true := by
  obtain ⟨data⟩ := s
  cases data with
  | nil => simp [isCanonicalWallet] at h
  | cons c0 tl =>
    cases tl with
    | nil => simp [isCanonicalWallet] at h
    | cons c1 rest =>
      simp only [isCanonicalWallet, Bool.and_eq_true, beq_iff_eq] at h
      simp only [isWalletFormat, Bool.and_eq_true, beq_iff_eq]
      obtain ⟨⟨⟨h0, h1⟩, hlen⟩, hall⟩ := h
      rw [List.all_eq_true] at hall ⊢
      exact ⟨⟨⟨h0, h1⟩, hlen⟩, fun c hc => lowerHexChar_isHexChar c (hall c hc)⟩

lemma isCanonicalWallet_ne_empty (s : String) (h : isCanonicalWallet s = true) :
    s ≠ "" := by
  obtain ⟨data⟩ := s
  cases data with
  | nil => simp [isCanonicalWallet] at h
  | cons c0 tl => intro he; simp [String.ext_iff] at he

lemma isCanonicalWallet_no_wildcard (s : String) (h : isCanonicalWallet s = true) :
    ∀ c ∈ s.data, (c == '%') = false ∧ (c == '_') = false := by
  obtain ⟨data⟩ := s
  cases data with
  | nil => intro c hc; simp at hc
  | cons c0 tl =>
    cases tl with
    | nil => simp [isCanonicalWallet] at h
    | cons c1 rest =>
      simp only [isCanonicalWallet, Bool.and_eq_true, beq_iff_eq] at h
      obtain ⟨⟨⟨h0, h1⟩, _hlen⟩, hall⟩ := h
      subst h0; subst h1
      rw [List.all_eq_true] at hall
      intro c hc
      rcases List.mem_cons.mp hc with rfl | hc
      · exact ⟨by decide, by decide⟩
      rcases List.mem_cons.mp hc with rfl | hc
      · exact ⟨by decide, by decide⟩
      · have hb := lowerHexChar_bounds c (hall c hc)
        constructor <;> rw [beq_eq_false_iff_ne] <;> intro he <;> subst he <;>
          revert hb <;> decide

lemma likeMatch_no_wildcard (pat : List Char)
    (h : ∀ c ∈ pat, (c == '%') = false ∧ (c == '_') = false) (txt : List Char) :
    (likeMatch pat txt = true ↔ pat = txt) := by
  induction pat generalizing txt with
  | nil => cases txt <;> simp [likeMatch]
  | cons p ps ih =>
    have hp := h p (List.mem_cons_self p ps)
    have hps := fun c hc => h c (List.mem_cons_of_mem p hc)
    cases txt with
    | nil => simp [likeMatch, hp.1]
    | cons t ts =>
      simp [likeMatch, hp.1, hp.2, Bool.and_eq_true, beq_iff_eq, ih hps ts]

lemma sqlIlike_canonical (w lw : String) (hw : isCanonicalWallet w = true)
    (hlw : isCanonicalWallet lw = true) : (sqlIlike w lw = true ↔ w = lw) := by
  have hdw : w.data.map Char.toLower = w.data :=
    congrArg String.data (isCanonicalWallet_fixed w hw)
  have hdlw : lw.data.map Char.toLower = lw.data :=
    congrArg String.data (isCanonicalWallet_fixed lw hlw)
  rw [sqlIlike, hdw, hdlw,
    likeMatch_no_wildcard lw.data (isCanonicalWallet_no_wildcard lw hlw) w.data]
  constructor
  · intro he; exact (String.ext he).symm
  · intro he; exact congrArg String.data he.symm

lemma register_cases (env : Env) (reg : UserRegistration) (st : DBState) :
    ((adminRegisterUserWithWallet env reg st).1.success = false ∧
     (adminRegisterUserWithWallet env reg st).2 = st) ∨
    ((adminRegisterUserWithWallet env reg st).1.success = false ∧
     ((adminRegisterUserWithWallet env reg st).2 =
        { st with nextAuth := st.nextAuth + 1,
                  authUsers := (st.authUsers ++
                    [({ id := UID.auth st.nextAuth, email := reg.email } : AuthUser)]).filter
                    fun u => u.id != UID.auth st.nextAuth } ∨
      (adminRegisterUserWithWallet env reg st).2 =
        { st with nextAuth := st.nextAuth + 1,
                  authUsers := st.authUsers ++
                    [{ id := UID.auth st.nextAuth, email := reg.email }] })) ∨
    ((st.profiles.find? fun p => p.walletAddress == some (toLowerStr reg.walletAddress)) = none ∧
     (st.profiles.find? fun p => p.email == reg.email) = none ∧
     (adminRegisterUserWithWallet env reg st).1.success = true ∧
     (adminRegisterUserWithWallet env reg st).2 =
       { profiles := st.profiles ++ [regProfile env reg st],
         auditLog := st.auditLog ++ (if env.auditInsertOk then [regAudit env reg st] else []),
         authUsers := st.authUsers ++
           [{ id := UID.auth st.nextAuth, email := reg.email }],
         nextProf := st.nextProf + 1, nextAuth := st.nextAuth + 1 }) := by
  rcases hc : env.caller with _ | cu
  · left
    simp [adminRegisterUserWithWallet, hc]
  · simp only [adminRegisterUserWithWallet, hc]
    split_ifs <;>
      simp_all [regProfile, regAudit, Option.not_isSome_iff_eq_none]

lemma updateWallet_cases (env : Env) (req : WalletUpdateRequest) (st : DBState) :
    ((adminUpdateUserWallet env req st).1.success = false ∧
     (adminUpdateUserWallet env req st).2 = st) ∨
    (∃ profile,
      (st.profiles.find? fun p => p.id == req.profileId) = some profile ∧
      (st.profiles.find? fun p =>
        p.walletAddress == some (toLowerStr req.newWalletAddress) &&
          p.id != req.profileId) = none ∧
      env.profileUpdateOk = true ∧
      (adminUpdateUserWallet env req st).1.success = true ∧
      (adminUpdateUserWallet env req st).2 =
        (if env.auditInsertOk then
          { updateProfileRows env req.profileId (updWalletFn env req) st with
            auditLog :=
              (updateProfileRows env req.profileId (updWalletFn env req) st).auditLog ++
                [updAudit env req profile] }
         else updateProfileRows env req.profileId (updWalletFn env req) st)) := by
  rcases hc : env.caller with _ | cu
  · left
    simp [adminUpdateUserWallet, hc]
  · simp only [adminUpdateUserWallet, hc]
    rcases hf : st.profiles.find? fun p => p.id == req.profileId with _ | profile <;>
      simp only [hf] <;>
      split_ifs <;>
      simp_all [updWalletFn, updAudit, Option.not_isSome_iff_eq_none] <;>
      first
        | rfl
        | exact ⟨rfl, rfl, rfl, rfl, rfl⟩

lemma verify_cases (env : Env) (pid : UID) (v : Bool) (st : DBState) :
    (env.profileUpdateOk = false ∧
     (adminVerifyWallet env pid v st).1.success = false ∧
     (adminVerifyWallet env pid v st).2 = st) ∨
    (env.profileUpdateOk = true ∧
     (adminVerifyWallet env pid v st).1.success = true ∧
     (adminVerifyWallet env pid v st).2 =
       updateProfileRows env pid (setVerifiedFn env v) st) := by
  simp only [adminVerifyWallet]
  split_ifs with h1 <;>
    simp_all [setVerifiedFn] <;>
    rfl

lemma profIdFresh_mono {n m : Nat} (h : n ≤ m) (u : UID)
    (hf : profIdFresh n u = true) : profIdFresh m u = true := by
  cases u <;> simp_all [profIdFresh] <;> omega

lemma authIdFresh_mono {n m : Nat} (h : n ≤ m) (u : UID)
    (hf : authIdFresh n u = true) : authIdFresh m u = true := by
  cases u <;> simp_all [authIdFresh] <;> omega

lemma profIdFresh_ne {n : Nat} {u : UID} (hf : profIdFresh n u = true) :
    u ≠ UID.prof n := by
  cases u <;> simp_all [profIdFresh] <;> omega

lemma authIdFresh_ne {n : Nat} {u : UID} (hf : authIdFresh n u = true) :
    u ≠ UID.auth n := by
  cases u <;> simp_all [authIdFresh] <;> omega

lemma profIdFresh_succ_self (n : Nat) : profIdFresh (n + 1) (UID.prof n) = true := by
  simp [profIdFresh]

lemma authIdFresh_succ_self (n : Nat) : authIdFresh (n + 1) (UID.auth n) = true := by
  simp [authIdFresh]

lemma noSharedWallet_of_ne_some (a b : Profile) (nw : String)
    (ha : a.walletAddress ≠ some nw) (hb : b.walletAddress = some nw) :
    noSharedWallet a b = true := by
  cases hw : a.walletAddress <;> simp_all [noSharedWallet]

lemma noSharedWallet_symm_of_ne_some (a b : Profile) (nw : String)
    (ha : a.walletAddress = some nw) (hb : b.walletAddress ≠ some nw) :
    noSharedWallet a b = true := by
  cases hw : b.walletAddress <;> simp_all [noSharedWallet]
  intro he
  exact hb (he ▸ rfl)

lemma noSharedWallet_congr (p p2 q q2 : Profile)
    (h1 : p.walletAddress = p2.walletAddress)
    (h2 : q.walletAddress = q2.walletAddress) :
    noSharedWallet p q = noSharedWallet p2 q2 := by
  simp only [noSharedWallet, h1, h2]

lemma pairwise_map_projection {β : Type} (g : Profile → β) (l : List Profile)
    (f : Profile → Profile) (h : l.Pairwise fun p q => g p ≠ g q)
    (hp : ∀ p ∈ l, g (f p) = g p) :
    (l.map f).Pairwise fun p q => g p ≠ g q := by
  rw [List.pairwise_map]
  refine List.Pairwise.imp_of_mem ?_ h
  intro a b ha hb hne
  rw [hp a ha, hp b hb]
  exact hne

lemma pairwise_map_wallet (l : List Profile) (f : Profile → Profile)
    (h : l.Pairwise fun p q => noSharedWallet p q = true)
    (hp : ∀ p ∈ l, (f p).walletAddress = p.walletAddress) :
    (l.map f).Pairwise fun p q => noSharedWallet p q = true := by
  rw [List.pairwise_map]
  refine List.Pairwise.imp_of_mem ?_ h
  intro a b ha hb hr
  rw [noSharedWallet_congr (f a) a (f b) b (hp a ha) (hp b hb)]
  exact hr

lemma forall_mem_map {P : Profile → Prop} (l : List Profile) (f : Profile → Profile)
    (h : ∀ p ∈ l, P (f p)) : ∀ p ∈ l.map f, P p := by
  intro p hp
  obtain ⟨q, hq, rfl⟩ := List.mem_map.mp hp
  exact h q hq

lemma invariant_register (env : Env) (reg : UserRegistration) (st : DBState)
    (h : Invariant st) : Invariant (adminRegisterUserWithWallet env reg st).2 := by
  obtain ⟨hw, he, hi, hpf, haf, hur⟩ := h
  rcases register_cases env reg st with ⟨_, hs⟩ | ⟨_, hs | hs⟩ | ⟨hfw, hfe, _, hs⟩
  · rw [hs]; exact ⟨hw, he, hi, hpf, haf, hur⟩
  · rw [hs]
    refine ⟨hw, he, hi, hpf, ?_, ?_⟩
    · intro u hu
      have hu2 := List.mem_of_mem_filter hu
      rcases List.mem_append.mp hu2 with h2 | h2
      · exact authIdFresh_mono (Nat.le_succ _) u.id (haf u h2)
      · have hu3 : u = { id := UID.auth st.nextAuth, email := reg.email } := by
          simpa using h2
        rw [hu3]
        exact authIdFresh_succ_self st.nextAuth
    · intro p hp
      exact authIdFresh_mono (Nat.le_succ _) _ (hur p hp)
  · rw [hs]
    refine ⟨hw, he, hi, hpf, ?_, ?_⟩
    · intro u hu
      rcases List.mem_append.mp hu with h2 | h2
      · exact authIdFresh_mono (Nat.le_succ _) u.id (haf u h2)
      · have hu3 : u = { id := UID.auth st.nextAuth, email := reg.email } := by
          simpa using h2
        rw [hu3]
        exact authIdFresh_succ_self st.nextAuth
    · intro p hp
      exact authIdFresh_mono (Nat.le_succ _) _ (hur p hp)
  · rw [hs]
    have hfw2 := List.find?_eq_none.mp hfw
    have hfe2 := List.find?_eq_none.mp hfe
    refine ⟨?_, ?_, ?_, ?_, ?_, ?_⟩
    · show List.Pairwise (fun p q => noSharedWallet p q = true)
        (st.profiles ++ [regProfile env reg st])
      rw [List.pairwise_append]
      refine ⟨hw, List.pairwise_singleton _ _, ?_⟩
      intro a ha b hb
      have hb2 : b = regProfile env reg st := by simpa using hb
      subst hb2
      refine noSharedWallet_of_ne_some a _ (toLowerStr reg.walletAddress) ?_ rfl
      intro hca
      have hcontra := hfw2 a ha
      rw [hca] at hcontra
      simp at hcontra
    · show List.Pairwise (fun p q => p.email ≠ q.email)
        (st.profiles ++ [regProfile env reg st])
      rw [List.pairwise_append]
      refine ⟨he, List.pairwise_singleton _ _, ?_⟩
      intro a ha b hb
      have hb2 : b = regProfile env reg st := by simpa using hb
      subst hb2
      intro hca
      have hcontra := hfe2 a ha
      rw [show (regProfile env reg st).email = reg.email from rfl] at hca
      rw [hca] at hcontra
      simp at hcontra
    · show List.Pairwise (fun p q => p.id ≠ q.id)
        (st.profiles ++ [regProfile env reg st])
      rw [List.pairwise_append]
      refine ⟨hi, List.pairwise_singleton _ _, ?_⟩
      intro a ha b hb
      have hb2 : b = regProfile env reg st := by simpa using hb
      subst hb2
      exact profIdFresh_ne (hpf a ha)
    · intro p hp
      rcases List.mem_append.mp hp with h2 | h2
      · exact profIdFresh_mono (Nat.le_succ _) _ (hpf p h2)
      · have hp2 : p = regProfile env reg st := by simpa using h2
        rw [hp2]
        exact profIdFresh_succ_self st.nextProf
    · intro u hu
      rcases List.mem_append.mp hu with h2 | h2
      · exact authIdFresh_mono (Nat.le_succ _) _ (haf u h2)
      · have hu3 : u = { id := UID.auth st.nextAuth, email := reg.email } := by
          simpa using h2
        rw [hu3]
        exact authIdFresh_succ_self st.nextAuth
    · intro p hp
      rcases List.mem_append.mp hp with h2 | h2
      · exact authIdFresh_mono (Nat.le_succ _) _ (hur p h2)
      · have hp2 : p = regProfile env reg st := by simpa using h2
        rw [hp2]
        exact authIdFresh_succ_self st.nextAuth

lemma invariant_updateWallet (env : Env) (req : WalletUpdateRequest) (st : DBState)
    (h : Invariant st) : Invariant (adminUpdateUserWallet env req st).2 := by
  obtain ⟨hw, he, hi, hpf, haf, hur⟩ := h
  rcases updateWallet_cases env req st with ⟨_, hs⟩ | ⟨profile, hf, hno, _, _, hs⟩
  · rw [hs]; exact ⟨hw, he, hi, hpf, haf, hur⟩
  · rw [hs]
    have hno2 := List.find?_eq_none.mp hno
    have hkey : Invariant (updateProfileRows env req.profileId (updWalletFn env req) st) := by
      refine ⟨?_, ?_, ?_, ?_, haf, ?_⟩
      · show List.Pairwise (fun p q => noSharedWallet p q = true)
          (st.profiles.map fun p =>
            if p.id == req.profileId then updWalletFn env req p else p)
        rw [List.pairwise_map]
        refine List.Pairwise.imp_of_mem ?_ (hw.and hi)
        intro a b ha hb hr
        obtain ⟨hr1, hr2⟩ := hr
        by_cases ha2 : (a.id == req.profileId) = true
        · by_cases hb2 : (b.id == req.profileId) = true
          · exact absurd ((beq_iff_eq.mp ha2).trans (beq_iff_eq.mp hb2).symm) hr2
          · rw [if_pos ha2, if_neg hb2]
            refine noSharedWallet_symm_of_ne_some _ b
              (toLowerStr req.newWalletAddress) rfl ?_
            intro hcb
            have hcontra := hno2 b hb
            rw [Bool.not_eq_true, Bool.and_eq_false_iff] at hcontra
            rcases hcontra with hcontra | hcontra
            · rw [hcb] at hcontra; simp at hcontra
            · rw [bne_eq_false_iff_eq] at hcontra
              exact absurd (beq_iff_eq.mpr hcontra) hb2
        · by_cases hb2 : (b.id == req.profileId) = true
          · rw [if_neg ha2, if_pos hb2]
            refine noSharedWallet_of_ne_some a _
              (toLowerStr req.newWalletAddress) ?_ rfl
            intro hca
            have hcontra := hno2 a ha
            rw [Bool.not_eq_true, Bool.and_eq_false_iff] at hcontra
            rcases hcontra with hcontra | hcontra
            · rw [hca] at hcontra; simp at hcontra
            · rw [bne_eq_false_iff_eq] at hcontra
              exact absurd (beq_iff_eq.mpr hcontra) ha2
          · rw [if_neg ha2, if_neg hb2]; exact hr1
      · show List.Pairwise (fun p q => p.email ≠ q.email)
          (st.profiles.map fun p =>
            if p.id == req.profileId then updWalletFn env req p else p)
        refine pairwise_map_projection Profile.email _ _ he ?_
        intro p hp
        by_cases h2 : (p.id == req.profileId) = true <;> simp [h2, updWalletFn]
      · show List.Pairwise (fun p q => p.id ≠ q.id)
          (st.profiles.map fun p =>
            if p.id == req.profileId then updWalletFn env req p else p)
        refine pairwise_map_projection Profile.id _ _ hi ?_
        intro p hp
        by_cases h2 : (p.id == req.profileId) = true <;> simp [h2, updWalletFn]
      · refine forall_mem_map st.profiles _ ?_
        intro p hp
        have hbase := hpf p hp
        by_cases h2 : (p.id == req.profileId) = true <;> simp [h2, updWalletFn] <;>
          exact hbase
      · refine forall_mem_map st.profiles _ ?_
        intro p hp
        have hbase := hur p hp
        by_cases h2 : (p.id == req.profileId) = true <;> simp [h2, updWalletFn] <;>
          exact hbase
    by_cases hA : env.auditInsertOk = true
    · rw [if_pos hA]; exact hkey
    · rw [if_neg hA]; exact hkey

lemma invariant_setVerified (env : Env) (pid : UID) (v : Bool) (st : DBState)
    (h : Invariant st) : Invariant (adminVerifyWallet env pid v st).2 := by
  obtain ⟨hw, he, hi, hpf, haf, hur⟩ := h
  rcases verify_cases env pid v st with ⟨_, _, hs⟩ | ⟨_, _, hs⟩
  · rw [hs]; exact ⟨hw, he, hi, hpf, haf, hur⟩
  · rw [hs]
    refine ⟨?_, ?_, ?_, ?_, haf, ?_⟩
    · show List.Pairwise (fun p q => noSharedWallet p q = true)
        (st.profiles.map fun p => if p.id == pid then setVerifiedFn env v p else p)
      refine pairwise_map_wallet _ _ hw ?_
      intro p hp
      by_cases h2 : (p.id == pid) = true <;> simp [h2, setVerifiedFn]
    · show List.Pairwise (fun p q => p.email ≠ q.email)
        (st.profiles.map fun p => if p.id == pid then setVerifiedFn env v p else p)
      refine pairwise_map_projection Profile.email _ _ he ?_
      intro p hp
      by_cases h2 : (p.id == pid) = true <;> simp [h2, setVerifiedFn]
    · show List.Pairwise (fun p q => p.id ≠ q.id)
        (st.profiles.map fun p => if p.id == pid then setVerifiedFn env v p else p)
      refine pairwise_map_projection Profile.id _ _ hi ?_
      intro p hp
      by_cases h2 : (p.id == pid) = true <;> simp [h2, setVerifiedFn]
    · refine forall_mem_map st.profiles _ ?_
      intro p hp
      have hbase := hpf p hp
      by_cases h2 : (p.id == pid) = true <;> simp [h2, setVerifiedFn] <;> exact hbase
    · refine forall_mem_map st.profiles _ ?_
      intro p hp
      have hbase := hur p hp
      by_cases h2 : (p.id == pid) = true <;> simp [h2, setVerifiedFn] <;> exact hbase

lemma invariant_applyOp (st : DBState) (op : AdminOp) (h : Invariant st) :
    Invariant (applyOp st op) := by
  cases op with
  | register env r => exact invariant_register env r st h
  | updateWallet env r => exact invariant_updateWallet env r st h
  | setVerified env pid v => exact invariant_setVerified env pid v st h

lemma invariant_runOps (ops : List AdminOp) (st : DBState) (h : Invariant st) :
    Invariant (runOps ops st) := by
  induction ops generalizing st with
  | nil => exact h
  | cons op tl ih => exact ih (applyOp st op) (invariant_applyOp st op h)

/-- C2: for every sequence of register and updateWallet operations (the
verification toggle included, which touches neither wallets nor emails)
starting from a state satisfying the invariant, at no point do two distinct
profiles hold the same non-null canonical wallet address, and at no point
do two distinct profiles hold the same email; every intermediate point of a
run is itself `runOps` of a prefix, so quantifying over all operation lists
covers every point of the sequence. -/
theorem register_updateWallet_preserve_uniqueness (st : DBState)
    (h : Invariant st) (ops : List AdminOp) :
    WalletUnique (runOps ops st) ∧ EmailUnique (runOps ops st) :=
  ⟨(invariant_runOps ops st h).1, (invariant_runOps ops st h).2.1⟩

/-- Witness for C2 at a concrete state and operation list. -/
theorem register_updateWallet_preserve_uniqueness_witness :
    Invariant exSt ∧
      (WalletUnique (runOps [AdminOp.register exEnv exReg,
          AdminOp.updateWallet exEnv exUpdReq] exSt) ∧
       EmailUnique (runOps [AdminOp.register exEnv exReg,
          AdminOp.updateWallet exEnv exUpdReq] exSt)) :=
  ⟨by decide,
   register_updateWallet_preserve_uniqueness exSt (by decide)
     [AdminOp.register exEnv exReg, AdminOp.updateWallet exEnv exUpdReq]⟩

lemma verifiedConsistent_register (env : Env) (reg : UserRegistration)
    (st : DBState) (h : VerifiedConsistent st) :
    VerifiedConsistent (adminRegisterUserWithWallet env reg st).2 := by
  rcases register_cases env reg st with ⟨_, hs⟩ | ⟨_, hs | hs⟩ | ⟨_, _, _, hs⟩ <;>
    rw [hs]
  · exact h
  · exact h
  · exact h
  · intro p hp
    rcases List.mem_append.mp hp with h2 | h2
    · exact h p h2
    · have hp2 : p = regProfile env reg st := by simpa using h2
      rw [hp2]
      rfl

lemma verifiedConsistent_updateWallet (env : Env) (req : WalletUpdateRequest)
    (st : DBState) (h : VerifiedConsistent st) :
    VerifiedConsistent (adminUpdateUserWallet env req st).2 := by
  rcases updateWallet_cases env req st with ⟨_, hs⟩ | ⟨profile, _, _, _, _, hs⟩ <;>
    rw [hs]
  · exact h
  · have hkey : VerifiedConsistent
        (updateProfileRows env req.profileId (updWalletFn env req) st) := by
      refine forall_mem_map st.profiles _ ?_
      intro p hp
      by_cases h2 : (p.id == req.profileId) = true
      · rw [if_pos h2]; rfl
      · rw [if_neg h2]; exact h p hp
    by_cases hA : env.auditInsertOk = true
    · rw [if_pos hA]; exact hkey
    · rw [if_neg hA]; exact hkey

lemma verifiedConsistent_setVerified (env : Env) (pid : UID) (v : Bool)
    (st : DBState) (h : VerifiedConsistent st) :
    VerifiedConsistent (adminVerifyWallet env pid v st).2 := by
  rcases verify_cases env pid v st with ⟨_, _, hs⟩ | ⟨_, _, hs⟩ <;> rw [hs]
  · exact h
  · refine forall_mem_map st.profiles _ ?_
    intro p hp
    by_cases h2 : (p.id == pid) = true
    · rw [if_pos h2]
      cases v <;> rfl
    · rw [if_neg h2]; exact h p hp

lemma verifiedConsistent_applyOp (st : DBState) (op : AdminOp)
    (h : VerifiedConsistent st) : VerifiedConsistent (applyOp st op) := by
  cases op with
  | register env r => exact verifiedConsistent_register env r st h
  | updateWallet env r => exact verifiedConsistent_updateWallet env r st h
  | setVerified env pid v => exact verifiedConsistent_setVerified env pid v st h

/-- C6: for every profile at every reachable state, the verification flag
is true exactly when the verification timestamp is non-null: every sequence
of register, updateWallet and setVerified operations preserves the
equivalence. -/
theorem verified_flag_iff_timestamp_preserved (st : DBState)
    (h : VerifiedConsistent st) (ops : List AdminOp) :
    VerifiedConsistent (runOps ops st) := by
  induction ops generalizing st with
  | nil => exact h
  | cons op tl ih => exact ih (applyOp st op) (verifiedConsistent_applyOp st op h)

/-- Witness for C6 at a concrete state and operation list. -/
theorem verified_flag_iff_timestamp_preserved_witness :
    VerifiedConsistent exSt ∧
      VerifiedConsistent (runOps [AdminOp.register exEnv exReg,
        AdminOp.setVerified exEnv (UID.prof 1) false,
        AdminOp.setVerified exEnv (UID.prof 1) true] exSt) :=
  ⟨by decide,
   verified_flag_iff_timestamp_preserved exSt (by decide)
     [AdminOp.register exEnv exReg,
      AdminOp.setVerified exEnv (UID.prof 1) false,
      AdminOp.setVerified exEnv (UID.prof 1) true]⟩

lemma canonical_register (env : Env) (reg : UserRegistration) (st : DBState)
    (hfmt : isWalletFormat reg.walletAddress = true) (h : CanonicalWallets st) :
    CanonicalWallets (adminRegisterUserWithWallet env reg st).2 := by
  rcases register_cases env reg st with ⟨_, hs⟩ | ⟨_, hs | hs⟩ | ⟨_, _, _, hs⟩ <;>
    rw [hs]
  · exact h
  · exact h
  · exact h
  · intro p hp
    rcases List.mem_append.mp hp with h2 | h2
    · exact h p h2
    · have hp2 : p = regProfile env reg st := by simpa using h2
      rw [hp2]
      show isCanonicalWallet (toLowerStr reg.walletAddress) = true
      exact isCanonicalWallet_toLowerStr reg.walletAddress hfmt

lemma canonical_updateWallet (env : Env) (req : WalletUpdateRequest) (st : DBState)
    (hfmt : isWalletFormat req.newWalletAddress = true) (h : CanonicalWallets st) :
    CanonicalWallets (adminUpdateUserWallet env req st).2 := by
  rcases updateWallet_cases env req st with ⟨_, hs⟩ | ⟨profile, _, _, _, _, hs⟩ <;>
    rw [hs]
  · exact h
  · have hkey : CanonicalWallets
        (updateProfileRows env req.profileId (updWalletFn env req) st) := by
      refine forall_mem_map st.profiles _ ?_
      intro p hp
      by_cases h2 : (p.id == req.profileId) = true
      · rw [if_pos h2]
        show isCanonicalWallet (toLowerStr req.newWalletAddress) = true
        exact isCanonicalWallet_toLowerStr req.newWalletAddress hfmt
      · rw [if_neg h2]; exact h p hp
    by_cases hA : env.auditInsertOk = true
    · rw [if_pos hA]; exact hkey
    · rw [if_neg hA]; exact hkey

lemma canonical_setVerified (env : Env) (pid : UID) (v : Bool) (st : DBState)
    (h : CanonicalWallets st) :
    CanonicalWallets (adminVerifyWallet env pid v st).2 := by
  rcases verify_cases env pid v st with ⟨_, _, hs⟩ | ⟨_, _, hs⟩ <;> rw [hs]
  · exact h
  · refine forall_mem_map st.profiles _ ?_
    intro p hp
    by_cases h2 : (p.id == pid) = true
    · rw [if_pos h2]; exact h p hp
    · rw [if_neg h2]; exact h p hp

lemma canonical_applyUIOp (st : DBState) (op : UIOp) (h : CanonicalWallets st) :
    CanonicalWallets (applyUIOp st op) := by
  cases op with
  | registerUser env f =>
    show CanonicalWallets (handleRegisterUser env f st)
    unfold handleRegisterUser
    split_ifs with h1 h2 h3 <;>
      first
        | exact h
        | (simp only [Bool.not_eq_true, Bool.not_eq_false, Bool.not_eq_true', Bool.not_eq_false'] at h2
           exact canonical_register env _ st h2 h)
  | updateWalletForm env f =>
    show CanonicalWallets (handleUpdateWallet env f st)
    unfold handleUpdateWallet
    split_ifs with h1 h2 h3 <;>
      first
        | exact h
        | (simp only [Bool.not_eq_true, Bool.not_eq_false, Bool.not_eq_true', Bool.not_eq_false'] at h2
           exact canonical_updateWallet env _ st h2 h)
  | toggleVerification env u c =>
    exact canonical_setVerified env u (!c) st h

/-- C7: every stored non-null wallet address stays in the canonical form of
0x followed by 40 lowercase hex digits across every sequence of
boundary-level operations, and both the register and the updateWallet
boundary handlers reject a malformed address before attempting any
mutation, leaving the state untouched. -/
theorem canonical_wallet_format_invariant (st : DBState)
    (h : CanonicalWallets st) :
    (∀ ops : List UIOp, CanonicalWallets (runUIOps ops st)) ∧
    (∀ (env : Env) (form : RegisterForm),
      isWalletFormat form.walletAddress = false →
        handleRegisterUser env form st = st) ∧
    (∀ (env : Env) (form : UpdateForm),
      isWalletFormat form.newWalletAddress = false →
        handleUpdateWallet env form st = st) := by
  refine ⟨?_, ?_, ?_⟩
  · intro ops
    induction ops generalizing st with
    | nil => exact h
    | cons op tl ih => exact ih (applyUIOp st op) (canonical_applyUIOp st op h)
  · intro env form hbad
    unfold handleRegisterUser
    split_ifs with h1 h2 h3 <;>
      first
        | rfl
        | (simp only [Bool.not_eq_true, Bool.not_eq_false, Bool.not_eq_true', Bool.not_eq_false'] at h2
           rw [h2] at hbad
           cases hbad)
  · intro env form hbad
    unfold handleUpdateWallet
    split_ifs with h1 h2 h3 <;>
      first
        | rfl
        | (simp only [Bool.not_eq_true, Bool.not_eq_false, Bool.not_eq_true', Bool.not_eq_false'] at h2
           rw [h2] at hbad
           cases hbad)

/-- Witness for C7 at a concrete state. -/
theorem canonical_wallet_format_invariant_witness :
    CanonicalWallets exSt ∧
      CanonicalWallets (runUIOps [UIOp.registerUser exEnv
        { email := "new@x.com", fullName := "New User",
          walletAddress := exWalletMixed, roleCategory := "clerk",
          phone := "" }] exSt) ∧
      handleRegisterUser exEnv
        { email := "new@x.com", fullName := "New User",
          walletAddress := "0xzz", roleCategory := "clerk", phone := "" } exSt =
        exSt :=
  ⟨by decide,
   (canonical_wallet_format_invariant exSt (by decide)).1
     [UIOp.registerUser exEnv
       { email := "new@x.com", fullName := "New User",
         walletAddress := exWalletMixed, roleCategory := "clerk", phone := "" }],
   (canonical_wallet_format_invariant exSt (by decide)).2.1 exEnv
     { email := "new@x.com", fullName := "New User",
       walletAddress := "0xzz", roleCategory := "clerk", phone := "" }
     (by decide)⟩

/-- C9: the boundary normalization of wallet addresses is idempotent, its
output is lowercase (fixed by a further lower-casing), and it rejects every
string failing the 0x + 40-hex-digit pattern. -/
theorem normalize_idempotent_lowercase_rejecting :
    (∀ w : String, (normalizeWallet w).bind normalizeWallet = normalizeWallet w) ∧
    (∀ w s : String, normalizeWallet w = some s → toLowerStr s = s) ∧
    (∀ w : String, isWalletFormat w = false → normalizeWallet w = none) := by
  refine ⟨?_, ?_, ?_⟩
  · intro w
    by_cases hf : isWalletFormat w = true
    · have hc := isCanonicalWallet_toLowerStr w hf
      simp [normalizeWallet, hf, isCanonicalWallet_isWalletFormat _ hc,
        isCanonicalWallet_fixed _ hc]
    · simp [normalizeWallet, hf]
  · intro w s hs
    by_cases hf : isWalletFormat w = true
    · rw [normalizeWallet, if_pos hf] at hs
      cases hs
      exact isCanonicalWallet_fixed _ (isCanonicalWallet_toLowerStr w hf)
    · rw [normalizeWallet, if_neg hf] at hs
      cases hs
  · intro w hf
    rw [normalizeWallet, if_neg (by rw [hf]; exact Bool.false_ne_true)]

/-- Witness for C9 at concrete wallet strings. -/
theorem normalize_idempotent_lowercase_rejecting_witness :
    ((normalizeWallet exWalletMixed).bind normalizeWallet =
      normalizeWallet exWalletMixed) ∧
    toLowerStr (toLowerStr exWalletMixed) = toLowerStr exWalletMixed ∧
    normalizeWallet "0xzz" = none :=
  ⟨normalize_idempotent_lowercase_rejecting.1 exWalletMixed,
   normalize_idempotent_lowercase_rejecting.2.1 exWalletMixed
     (toLowerStr exWalletMixed) (by decide),
   normalize_idempotent_lowercase_rejecting.2.2 "0xzz" (by decide)⟩

/-- C10: the registration result (success flag, profile id and error) is
independent of whether the wallet_added audit insert succeeded: the code
never inspects that insert's outcome, so registration reports success
whenever the profile insert succeeded, even when the audit append fails. -/
theorem register_success_independent_of_audit_insert (env : Env)
    (reg : UserRegistration) (st : DBState) (b : Bool) :
    (adminRegisterUserWithWallet (withAuditInsertOk env b) reg st).1 =
      (adminRegisterUserWithWallet env reg st).1 := by
  rcases hc : env.caller with _ | cu <;>
    simp only [adminRegisterUserWithWallet, withAuditInsertOk, hc] <;>
    split_ifs <;>
    rfl

lemma eq_of_sameWallet {l : List Profile}
    (hu : l.Pairwise fun p q => noSharedWallet p q = true)
    {p q : Profile} {w : String} (hp : p ∈ l) (hq : q ∈ l)
    (hpw : p.walletAddress = some w) (hqw : q.walletAddress = some w) :
    p = q := by
  induction l with
  | nil => cases hp
  | cons a tl ih =>
    rw [List.pairwise_cons] at hu
    rcases List.mem_cons.mp hp with rfl | hp2
    · rcases List.mem_cons.mp hq with rfl | hq2
      · rfl
      · have hcontra := hu.1 q hq2
        simp [noSharedWallet, hpw, hqw] at hcontra
    · rcases List.mem_cons.mp hq with rfl | hq2
      · have hcontra := hu.1 p hp2
        simp [noSharedWallet, hpw, hqw] at hcontra
      · exact ih hu.2 hp2 hq2

/-- C1: for every wallet address and role, the authorization query reports
authorized exactly when some profile stores the lower-cased input as its
wallet, holds the requested role, and has a verified wallet; in every other
case, a missing wallet, a differing role and an unverified wallet included,
it reports not authorized.  The state hypotheses are the subsystem's own
invariants: stored wallets are canonical, no wallet is shared, and roles
come from the non-empty role enumeration. -/
theorem authorize_iff_profile_match (st : DBState) (w r : String)
    (hcanon : CanonicalWallets st) (huniq : WalletUnique st)
    (hrole : ∀ p ∈ st.profiles, p.roleCategory ≠ "") :
    ((verifyWalletAuthorization st w r).isAuthorized = true ↔
      ∃ p ∈ st.profiles, p.walletAddress = some (toLowerStr w) ∧
        p.roleCategory = r ∧ p.isWalletVerified = true) := by
  unfold verifyWalletAuthorization verify_wallet_authorization
  by_cases hempty : w = "" ∨ r = ""
  · rw [if_pos hempty]
    simp only [Bool.false_eq_true, false_iff]
    rintro ⟨p, hp, hpw, hpr, hpv⟩
    rcases hempty with he | he
    · subst he
      have hc := hcanon p hp
      rw [hpw] at hc
      have hlw : toLowerStr "" = "" := rfl
      rw [hlw] at hc
      simp [isCanonicalWallet] at hc
    · subst he
      exact (hrole p hp) hpr
  · rw [if_neg hempty]
    rcases hfind : st.profiles.find? (fun p =>
        match p.walletAddress with
        | some x => sqlIlike x (toLowerStr w)
        | none => false) with _ | q
    · simp only [hfind, Bool.false_eq_true, false_iff]
      rintro ⟨p, hp, hpw, hpr, hpv⟩
      have hpred := List.find?_eq_none.mp hfind p hp
      rw [hpw] at hpred
      have hclw : isCanonicalWallet (toLowerStr w) = true := by
        have hc := hcanon p hp
        rw [hpw] at hc
        simpa using hc
      exact hpred ((sqlIlike_canonical _ _ hclw hclw).mpr rfl)
    · have hq := List.find?_some hfind
      have hqmem := List.mem_of_find?_eq_some hfind
      simp only [hfind]
      rcases hqw : q.walletAddress with _ | qw
      · rw [hqw] at hq
        cases hq
      · rw [hqw] at hq
        have hqcanon : isCanonicalWallet qw = true := by
          have hc := hcanon q hqmem
          rw [hqw] at hc
          simpa using hc
        constructor
        · intro htrue
          simp only [Bool.and_eq_true, beq_iff_eq] at htrue
          exact ⟨q, hqmem, hqw.trans htrue.1.1, htrue.1.2, htrue.2⟩
        · rintro ⟨p, hp, hpw, hpr, hpv⟩
          have hclw : isCanonicalWallet (toLowerStr w) = true := by
            have hc := hcanon p hp
            rw [hpw] at hc
            simpa using hc
          have hqlw : qw = toLowerStr w :=
            (sqlIlike_canonical qw (toLowerStr w) hqcanon hclw).mp hq
          have hqp : q = p :=
            eq_of_sameWallet huniq hqmem hp
              (hqw.trans (congrArg some hqlw)) hpw
          subst hqp
          simp only [Bool.and_eq_true, beq_iff_eq]
          exact ⟨⟨congrArg some hqlw, hpr⟩, hpv⟩

/-- Witness for C1 at a concrete state: the lawyer's verified wallet
authorizes for role lawyer and the matching profile exists. -/
theorem authorize_iff_profile_match_witness :
    CanonicalWallets exSt ∧
      ((verifyWalletAuthorization exSt exWalletB "lawyer").isAuthorized = true ↔
        ∃ p ∈ exSt.profiles, p.walletAddress = some (toLowerStr exWalletB) ∧
          p.roleCategory = "lawyer" ∧ p.isWalletVerified = true) :=
  ⟨by decide,
   authorize_iff_profile_match exSt exWalletB "lawyer" (by decide) (by decide)
     (by decide)⟩

/-- Counterexample to C4: a non-admin caller (the lawyer) toggles
verification of a profile id that does not exist, and the operation still
reports success with no error, where the claim demands an unauthorized
failure and a not-found failure. -/
theorem setVerified_unauthorized_not_found_counterexample :
    (adminVerifyWallet exEnvLawyer (UID.prof 99) true exSt).1.success = true ∧
    (adminVerifyWallet exEnvLawyer (UID.prof 99) true exSt).1.error = none := by
  decide

/-- C4 amended: the setVerified operation performs neither a caller-role
check nor a profile-existence check.  It fails only when the storage update
fails, leaving the state unchanged; with a working store it reports success
for every caller, and when no profile carries the given id it changes
nothing and still reports success. -/
theorem setVerified_behavior_amended (env : Env) (pid : UID) (v : Bool)
    (st : DBState) :
    (env.profileUpdateOk = false →
      (adminVerifyWallet env pid v st).1.success = false ∧
      (adminVerifyWallet env pid v st).2 = st) ∧
    (env.profileUpdateOk = true →
      (adminVerifyWallet env pid v st).1.success = true ∧
      ((∀ p ∈ st.profiles, p.id ≠ pid) →
        (adminVerifyWallet env pid v st).2 = st)) := by
  rcases verify_cases env pid v st with ⟨hok, hsucc, hs⟩ | ⟨hok, hsucc, hs⟩
  · refine ⟨fun _ => ⟨hsucc, hs⟩, fun hcontra => ?_⟩
    rw [hok] at hcontra
    cases hcontra
  · refine ⟨fun hcontra => ?_, fun _ => ⟨hsucc, fun hno => ?_⟩⟩
    · rw [hok] at hcontra
      cases hcontra
    · rw [hs]
      unfold updateProfileRows
      have h1 : (st.profiles.map fun p =>
          if p.id == pid then setVerifiedFn env v p else p) = st.profiles := by
        refine map_self_of_fixed _ _ ?_
        intro p hp
        rw [if_neg]
        simp only [beq_iff_eq]
        exact hno p hp
      have h2 : (st.profiles.filter fun p => p.id == pid) = [] := by
        rw [List.filter_eq_nil]
        intro p hp
        simp only [beq_iff_eq]
        exact hno p hp
      rw [h1, h2]
      simp

/-- Witness for the amended C4 at a concrete state. -/
theorem setVerified_behavior_amended_witness :
    (adminVerifyWallet exEnvLawyer (UID.prof 99) true exSt).1.success = true ∧
    (adminVerifyWallet exEnvLawyer (UID.prof 99) true exSt).2 = exSt :=
  ⟨((setVerified_behavior_amended exEnvLawyer (UID.prof 99) true exSt).2
      (by decide)).1,
   ((setVerified_behavior_amended exEnvLawyer (UID.prof 99) true exSt).2
      (by decide)).2 (by decide)⟩

/-- C5: when the external identity creation succeeds but the profile insert
fails, registration issues the compensating deletion of the identity and
returns a failure: afterwards the identity records are exactly as before
and no profile references the identity that was created (the compensating
deletion itself succeeding, as the claim assumes). -/
theorem register_compensation_on_profile_failure (env : Env)
    (reg : UserRegistration) (st : DBState) (cu : UID)
    (hcaller : env.caller = some cu)
    (hadmin : (st.profiles.find? fun p => p.userId == cu).map Profile.roleCategory =
      some "admin")
    (hwallet : (st.profiles.find? fun p =>
      p.walletAddress == some (toLowerStr reg.walletAddress)) = none)
    (hemail : (st.profiles.find? fun p => p.email == reg.email) = none)
    (hcreate : env.authCreateOk = true)
    (hinsert : env.profileInsertOk = false)
    (hdelete : env.authDeleteOk = true)
    (hfresh : AuthIdsFresh st) (hrefs : UserRefsFresh st) :
    (adminRegisterUserWithWallet env reg st).1.success = false ∧
    (adminRegisterUserWithWallet env reg st).2.authUsers = st.authUsers ∧
    (adminRegisterUserWithWallet env reg st).2.profiles = st.profiles ∧
    ∀ p ∈ (adminRegisterUserWithWallet env reg st).2.profiles,
      p.userId ≠ UID.auth st.nextAuth := by
  simp only [adminRegisterUserWithWallet, hcaller, hadmin, hwallet, hemail,
    hcreate, hinsert, hdelete, bne_self_eq_false, Bool.false_and,
    Option.isSome_none, Bool.not_true, Bool.not_false, Bool.false_eq_true,
    if_false, if_true, ite_true, ite_false]
  refine ⟨trivial, ?_, trivial, ?_⟩
  · rw [List.filter_append]
    have hnew : List.filter (fun u => u.id != UID.auth st.nextAuth)
        [({ id := UID.auth st.nextAuth, email := reg.email } : AuthUser)] = [] := by
      simp
    rw [hnew, List.append_nil]
    rw [List.filter_eq_self]
    intro u hu
    simp only [bne_iff_ne, ne_eq]
    exact authIdFresh_ne (hfresh u hu)
  · intro p hp
    exact authIdFresh_ne (hrefs p hp)

/-- Witness for C5 at a concrete state with an injected profile-insert
failure. -/
theorem register_compensation_on_profile_failure_witness :
    (adminRegisterUserWithWallet exEnvInsertFail exReg exSt).1.success = false ∧
    (adminRegisterUserWithWallet exEnvInsertFail exReg exSt).2.authUsers =
      exSt.authUsers ∧
    (adminRegisterUserWithWallet exEnvInsertFail exReg exSt).2.profiles =
      exSt.profiles ∧
    ∀ p ∈ (adminRegisterUserWithWallet exEnvInsertFail exReg exSt).2.profiles,
      p.userId ≠ UID.auth exSt.nextAuth :=
  register_compensation_on_profile_failure exEnvInsertFail exReg exSt
    (UID.auth 0) (by decide) (by decide) (by decide) (by decide) (by decide)
    (by decide) (by decide) (by decide) (by decide)

/-- C8: the code populates changedBy with the caller's auth-identity uid
(currentAuthUser.id in the services, auth.uid() in the trigger), not with
the caller's Profile id: in an authenticated administrative registration
the produced wallet_added entry carries the admin's auth uid, which differs
from the admin's Profile id — contradicting both the claim and the schema's
own foreign key changed_by REFERENCES profiles(id). -/
theorem changedBy_is_auth_uid_not_profile_id :
    auditDelta exSt (adminRegisterUserWithWallet exEnv exReg exSt).2 =
      [{ profileId := UID.prof 2, action := "wallet_added", oldValue := none,
         newValue := some (toLowerStr exWalletMixed),
         changedBy := some (UID.auth 0), changedAt := 5 }] ∧
    exAdminProfile.userId = UID.auth 0 ∧
    exAdminProfile.id = UID.prof 0 ∧
    (some (UID.auth 0) : Option UID) ≠ some exAdminProfile.id := by
  decide

/-- Counterexample to C3: an accepted wallet rebind through
adminUpdateUserWallet appends two wallet_changed audit entries, one from
the storage trigger and one from the explicit insert, where the claim
demands exactly one. -/
theorem wallet_changed_double_audit_counterexample :
    ((auditDelta exSt (adminUpdateUserWallet exEnv exUpdReq exSt).2).filter
        (fun e => e.action == "wallet_changed")).length = 2 ∧
    ¬((auditDelta exSt (adminUpdateUserWallet exEnv exUpdReq exSt).2).filter
        (fun e => e.action == "wallet_changed")).length = 1 := by
  decide

/-- C3 amended: registration appends exactly one wallet_added entry; a
verification change appends exactly one wallet_verified or
wallet_unverified entry with the string-encoded old and new flags; a no-op
verification toggle appends no entry; but an accepted wallet_changed
transition through updateWallet appends exactly two entries carrying the
prior and the new address — one from the storage trigger and one from the
explicit insert. -/
theorem audit_emission_amended :
    (∀ (env : Env) (reg : UserRegistration) (st : DBState),
      (adminRegisterUserWithWallet env reg st).1.success = true →
      env.auditInsertOk = true →
      auditDelta st (adminRegisterUserWithWallet env reg st).2 =
        [regAudit env reg st]) ∧
    (∀ (env : Env) (req : WalletUpdateRequest) (st : DBState) (p : Profile)
        (ow : String),
      (st.profiles.find? fun q => q.id == req.profileId) = some p →
      st.profiles.filter (fun q => q.id == req.profileId) = [p] →
      p.walletAddress = some ow → ow ≠ "" →
      p.isWalletVerified = true →
      some ow ≠ some (toLowerStr req.newWalletAddress) →
      (adminUpdateUserWallet env req st).1.success = true →
      env.auditInsertOk = true →
      auditDelta st (adminUpdateUserWallet env req st).2 =
        [{ profileId := p.id, action := "wallet_changed", oldValue := some ow,
           newValue := some (toLowerStr req.newWalletAddress),
           changedBy := env.caller, changedAt := env.timestamp },
         { profileId := req.profileId, action := "wallet_changed",
           oldValue := some ow,
           newValue := some (toLowerStr req.newWalletAddress),
           changedBy := env.caller, changedAt := env.timestamp }]) ∧
    (∀ (env : Env) (pid : UID) (v : Bool) (st : DBState) (p : Profile),
      st.profiles.filter (fun q => q.id == pid) = [p] →
      env.profileUpdateOk = true →
      p.isWalletVerified ≠ v →
      auditDelta st (adminVerifyWallet env pid v st).2 =
        [{ profileId := p.id,
           action := if v then "wallet_verified" else "wallet_unverified",
           oldValue := some (boolText p.isWalletVerified),
           newValue := some (boolText v),
           changedBy := env.caller, changedAt := env.timestamp }]) ∧
    (∀ (env : Env) (pid : UID) (v : Bool) (st : DBState),
      (∀ p ∈ st.profiles, p.id = pid → p.isWalletVerified = v) →
      env.profileUpdateOk = true →
      auditDelta st (adminVerifyWallet env pid v st).2 = []) := by
  refine ⟨?_, ?_, ?_, ?_⟩
  · intro env reg st hsucc hA
    rcases register_cases env reg st with ⟨hfail, _⟩ | ⟨hfail, _⟩ |
        ⟨_, _, _, hs⟩
    · rw [hsucc] at hfail; cases hfail
    · rw [hsucc] at hfail; cases hfail
    · rw [hs]
      unfold auditDelta
      show (st.auditLog ++
        (if env.auditInsertOk then [regAudit env reg st] else [])).drop
          st.auditLog.length = [regAudit env reg st]
      rw [if_pos hA, List.drop_left]
  · intro env req st p ow hfind hfilter hw hownn hveri hne hsucc hA
    rcases updateWallet_cases env req st with ⟨hfail, _⟩ |
        ⟨profile, hf, _, _, _, hs⟩
    · rw [hsucc] at hfail; cases hfail
    · rw [hfind] at hf
      have hfp : profile = p := by
        injection hf with hval
        exact hval.symm
      rw [hfp] at hs
      rw [hs, if_pos hA]
      unfold auditDelta updateProfileRows
      show (st.auditLog ++
          (st.profiles.filter fun q => q.id == req.profileId).flatMap
            (fun q => log_wallet_change env.caller env.timestamp q
              (updWalletFn env req q)) ++
          [updAudit env req p]).drop st.auditLog.length = _
      rw [hfilter]
      have hlog : log_wallet_change env.caller env.timestamp p
          (updWalletFn env req p) =
          [{ profileId := p.id, action := "wallet_changed",
             oldValue := some ow,
             newValue := some (toLowerStr req.newWalletAddress),
             changedBy := env.caller, changedAt := env.timestamp }] := by
        unfold log_wallet_change updWalletFn
        rw [if_pos (by rw [hw]; exact hne), if_neg (by rw [hveri]; exact fun h => h rfl)]
        rw [hw]
        simp
      have hja : updAudit env req p =
          { profileId := req.profileId, action := "wallet_changed",
            oldValue := some ow,
            newValue := some (toLowerStr req.newWalletAddress),
            changedBy := env.caller, changedAt := env.timestamp } := by
        unfold updAudit jsOrNull
        rw [hw]
        simp [hownn]
      rw [List.flatMap_cons, List.flatMap_nil, List.append_nil, hlog, hja,
        List.append_assoc, List.drop_left]
      rfl
  · intro env pid v st p hfilter hok hdiff
    rcases verify_cases env pid v st with ⟨hfail, _, _⟩ | ⟨_, _, hs⟩
    · rw [hok] at hfail; cases hfail
    · rw [hs]
      unfold auditDelta updateProfileRows
      show (st.auditLog ++
          (st.profiles.filter fun q => q.id == pid).flatMap
            (fun q => log_wallet_change env.caller env.timestamp q
              (setVerifiedFn env v q))).drop st.auditLog.length = _
      rw [hfilter]
      have hlog : log_wallet_change env.caller env.timestamp p
          (setVerifiedFn env v p) =
          [{ profileId := p.id,
             action := if v then "wallet_verified" else "wallet_unverified",
             oldValue := some (boolText p.isWalletVerified),
             newValue := some (boolText v),
             changedBy := env.caller, changedAt := env.timestamp }] := by
        unfold log_wallet_change setVerifiedFn
        rw [if_neg (fun h => h rfl), if_pos hdiff]
        simp
      rw [List.flatMap_cons, List.flatMap_nil, List.append_nil, hlog,
        List.drop_left]
  · intro env pid v st hall hok
    rcases verify_cases env pid v st with ⟨hfail, _, _⟩ | ⟨_, _, hs⟩
    · rw [hok] at hfail; cases hfail
    · rw [hs]
      unfold auditDelta updateProfileRows
      show (st.auditLog ++
          (st.profiles.filter fun q => q.id == pid).flatMap
            (fun q => log_wallet_change env.caller env.timestamp q
              (setVerifiedFn env v q))).drop st.auditLog.length = []
      have hnil : (st.profiles.filter fun q => q.id == pid).flatMap
          (fun q => log_wallet_change env.caller env.timestamp q
            (setVerifiedFn env v q)) = [] := by
        rw [List.flatMap_eq_nil_iff]
        intro q hq
        have hqmem := List.mem_of_mem_filter hq
        have hqid : q.id = pid := by
          have := List.of_mem_filter hq
          simpa using this
        have hqv : q.isWalletVerified = v := hall q hqmem hqid
        unfold log_wallet_change setVerifiedFn
        rw [if_neg (fun h => h rfl), if_neg (by rw [hqv]; exact fun h => h rfl)]
        rfl
      rw [hnil, List.append_nil, List.drop_length]

/-- Witness for the amended C3: concrete instances of all four audit
emission shapes. -/
theorem audit_emission_amended_witness :
    auditDelta exSt (adminRegisterUserWithWallet exEnv exReg exSt).2 =
      [regAudit exEnv exReg exSt] ∧
    auditDelta exSt (adminUpdateUserWallet exEnv exUpdReq exSt).2 =
      [{ profileId := UID.prof 1, action := "wallet_changed",
         oldValue := some exWalletB,
         newValue := some (toLowerStr exUpdReq.newWalletAddress),
         changedBy := some (UID.auth 0), changedAt := 5 },
       { profileId := UID.prof 1, action := "wallet_changed",
         oldValue := some exWalletB,
         newValue := some (toLowerStr exUpdReq.newWalletAddress),
         changedBy := some (UID.auth 0), changedAt := 5 }] ∧
    auditDelta exSt (adminVerifyWallet exEnv (UID.prof 1) false exSt).2 =
      [{ profileId := UID.prof 1, action := "wallet_unverified",
         oldValue := some "true", newValue := some "false",
         changedBy := some (UID.auth 0), changedAt := 5 }] ∧
    auditDelta exSt (adminVerifyWallet exEnv (UID.prof 1) true exSt).2 = [] :=
  ⟨audit_emission_amended.1 exEnv exReg exSt (by decide) (by decide),
   by
     have hmain := audit_emission_amended.2.1 exEnv exUpdReq exSt
       exTargetProfile exWalletB (by decide) (by decide) (by decide)
       (by decide) (by decide) (by decide) (by decide) (by decide)
     exact hmain,
   by
     have hmain := audit_emission_amended.2.2.1 exEnv (UID.prof 1) false exSt
       exTargetProfile (by decide) (by decide) (by decide)
     exact hmain,
   audit_emission_amended.2.2.2 exEnv (UID.prof 1) true exSt (by decide)
     (by decide)⟩

end NayaSutra
